import Mathlib

/-!
# Verification of the terraform-cloud-action run-lifecycle core

Shallow embedding of `main.go` of the `terraform-cloud-action` repository:
the value normalizer (`convertValueToString`, `containsHCLSyntax`), the
variable reconciler (the per-entry body of the loop in `run`), the run URL
and output emission, and the polling loop (the three-armed `select` in
`run`).  Definitions are translated from the Go source; theorems settle the
frozen claims about it.
-/

namespace TfcAction

/-! ## Decimal rendering (embedding of `fmt.Sprintf("%d", ...)`)

Go renders integers in plain base-10 with no grouping and no sign padding.
We embed that rendering explicitly so its properties can be proved. -/

/-- The character for the decimal digit `n % 10`. -/
def digitChar (n : Nat) : Char :=
  match n % 10 with
  | 0 => '0'
  | 1 => '1'
  | 2 => '2'
  | 3 => '3'
  | 4 => '4'
  | 5 => '5'
  | 6 => '6'
  | 7 => '7'
  | 8 => '8'
  | _ => '9'

/-- Base-10 digit list of `n`, most significant first; `fuel` bounds the
recursion (any `fuel > n` is enough). -/
def natDecChars : Nat → Nat → List Char
  | 0, _ => []
  | fuel + 1, n =>
    if n < 10 then [digitChar n]
    else natDecChars fuel (n / 10) ++ [digitChar (n % 10)]

/-- Base-10 rendering of a natural number (embedding of Go `%d` on
unsigned integers). -/
def natDecimal (n : Nat) : String :=
  String.mk (natDecChars (n + 1) n)

/-- Base-10 rendering of an integer (embedding of Go `%d` on signed
integers): a leading minus sign for negatives, nothing else. -/
def intDecimal (i : Int) : String :=
  if i < 0 then "-" ++ natDecimal i.natAbs else natDecimal i.natAbs

/-! ## Fixed-point float rendering (embedding of `fmt.Sprintf("%f", ...)`)

Go `%f` renders a float in fixed-point form with exactly six digits after
the decimal point and never in scientific notation.  The float argument is
modelled by the exact rational value it denotes (every IEEE-754 double is
a rational). -/

/-- The six fraction digits of `f` (`f < 10^6`), zero padded, most
significant first: the embedding of `%f`'s six-digit fractional part. -/
def frac6 (f : Nat) : List Char :=
  [digitChar (f / 100000), digitChar (f / 10000), digitChar (f / 1000),
   digitChar (f / 100), digitChar (f / 10), digitChar f]

/-- Fixed-point rendering with six fraction digits of the rational `q`
(embedding of `fmt.Sprintf("%f", v)` for a float `v` denoting `q`).
The scaled value is rounded to the nearest integer; the formatter's
resolution of exact half-way ties (to even) is not distinguished here, as
no property below depends on it. -/
def formatFloat6 (q : ℚ) : String :=
  let scaled : Nat := (round (|q| * 1000000) : ℤ).toNat
  (if q < 0 then "-" else "") ++ natDecimal (scaled / 1000000) ++ "." ++
    String.mk (frac6 (scaled % 1000000))

/-! ## The dynamically-typed variable value

`workspaceVar.Value` in the Go source is an `interface{}` produced by JSON
decoding.  The `convertValueToString` switch distinguishes strings, bools,
the signed and unsigned machine-integer families, and the float family,
with a generic `%v` fallback.  The `other` constructor carries the `%v`
rendering of a value outside the enumerated shapes. -/

inductive GoValue where
  | str (s : String)
  | boolean (b : Bool)
  | int (i : Int)
  | uint (n : Nat)
  | float (q : ℚ)
  | other (rendered : String)
deriving DecidableEq, Repr

/-- Embedding of `convertValueToString` (main.go lines 42-57): the
type-switch converting an arbitrary decoded value to the string form the
remote service requires. -/
def convertValueToString : GoValue → String
  | .str s => s
  | .boolean b => if b then "true" else "false"
  | .int i => intDecimal i
  | .uint n => natDecimal n
  | .float q => formatFloat6 q
  | .other rendered => rendered

/-! ## HCL-syntax detection -/

/-- Embedding of Go `strings.Contains(s, needle)` for a one-character
needle: containment of the character in the string. -/
def goContainsChar (s : String) (c : Char) : Bool :=
  s.data.contains c

/-- Embedding of `containsHCLSyntax` (main.go lines 60-68). -/
def containsHCLSyntax (value : String) : Bool :=
  goContainsChar value '[' ||
  goContainsChar value ']' ||
  goContainsChar value '\x7b' ||
  goContainsChar value '\x7d' ||
  goContainsChar value '=' ||
  goContainsChar value ','

/-! ## Variable reconciler data model

The Go `workspaceVar` struct (main.go lines 70-76) carries key, value,
optional description, optional HCL flag and optional sensitive flag — and
no category field.  Remote variables as read back from the service carry a
server-assigned id, their key and their category. -/

/-- Embedding of `workspaceVar` (main.go lines 70-76).  Pointer fields of
the Go struct become `Option`s. -/
structure WorkspaceVar where
  key : String
  value : GoValue
  description : Option String
  hcl : Option Bool
  sensitive : Option Bool
deriving DecidableEq, Repr

/-- Embedding of the fields of `tfe.Variable` the reconciler reads: the
server-assigned identifier, the key, and the category. -/
structure RemoteVar where
  id : String
  key : String
  category : String
deriving DecidableEq, Repr

/-- Embedding of `tfe.VariableCreateOptions` as populated by `run`
(main.go lines 156-167). -/
structure VariableCreateOptions where
  key : String
  value : String
  category : String
  hcl : Bool
  sensitive : Bool
  description : Option String
deriving DecidableEq, Repr

/-- Embedding of `tfe.VariableUpdateOptions` as populated by `run`
(main.go lines 194-199 and 213-218). -/
structure VariableUpdateOptions where
  value : Option String
  description : Option String
  hcl : Option Bool
  sensitive : Option Bool
deriving DecidableEq, Repr

/-- Embedding of the linear scan over the fetched list (main.go lines
124-130 and 182-188): the first remote variable whose key equals `key`,
if any. -/
def findByKey (key : String) : List RemoteVar → Option RemoteVar
  | [] => none
  | ev :: rest => if ev.key == key then some ev else findByKey key rest

/-- The create options `run` builds for a desired entry (main.go lines
134-167): value normalized, category fixed to `terraform`, HCL flag from
the entry or auto-detected, sensitive defaulted to false, description
copied when present. -/
def mkCreateOpts (v : WorkspaceVar) : VariableCreateOptions :=
  let valueStr := convertValueToString v.value
  let isHCL :=
    match v.hcl with
    | some b => b
    | none => containsHCLSyntax (convertValueToString v.value)
  { key := v.key
    value := valueStr
    category := "terraform"
    hcl := isHCL
    sensitive :=
      match v.sensitive with
      | some b => b
      | none => false
    description := v.description }

/-- The update options `run` builds for a desired entry (main.go lines
194-199 and 213-218): the normalized value plus the entry's optional
description, HCL and sensitive pointers passed through. -/
def mkUpdateOpts (v : WorkspaceVar) : VariableUpdateOptions :=
  { value := some (convertValueToString v.value)
    description := v.description
    hcl := v.hcl
    sensitive := v.sensitive }

/-- One remote call issued by the reconciler, recorded for counting. -/
inductive TfeCall where
  | list
  | create (opts : VariableCreateOptions)
  | update (varID : String) (opts : VariableUpdateOptions)
deriving DecidableEq, Repr

/-- The remote service's responses to the (at most four) calls the
reconciler can issue for one desired entry: the initial list, the create,
the conflict-path re-list, and the update.  `Except.error e` models a Go
error whose `Error()` string is `e`. -/
structure ClientResponses where
  list1 : Except String (List RemoteVar)
  create : Except String Unit
  list2 : Except String (List RemoteVar)
  update : Except String Unit

/-- Quote a key the way `fmt`'s `%q` verb renders a plain identifier. -/
def quoteKey (k : String) : String :=
  "\"" ++ k ++ "\""

/-- Embedding of one iteration of the reconciliation loop in `run`
(main.go lines 116-223): list, scan by key, then create (with the
"Key has already been taken" conflict fallback of lines 171-206) or
update.  Returns the Go function's result together with the trace of
remote calls issued, in order. -/
def processVar (c : ClientResponses) (v : WorkspaceVar) :
    Except String Unit × List TfeCall :=
  match c.list1 with
  | .error e => (.error ("could not list variables: " ++ e), [.list])
  | .ok items =>
    match findByKey v.key items with
    | some ev =>
      match c.update with
      | .error ue =>
        (.error ("could not update variable " ++ quoteKey v.key ++ ": " ++ ue),
         [.list, .update ev.id (mkUpdateOpts v)])
      | .ok _ => (.ok (), [.list, .update ev.id (mkUpdateOpts v)])
    | none =>
      let opts := mkCreateOpts v
      match c.create with
      | .ok _ => (.ok (), [.list, .create opts])
      | .error e =>
        if e == "Key has already been taken" then
          match c.list2 with
          | .error e2 =>
            (.error ("could not list variables for update: " ++ e2),
             [.list, .create opts, .list])
          | .ok items2 =>
            match findByKey v.key items2 with
            | none =>
              (.error ("variable " ++ quoteKey v.key ++ " not found for update"),
               [.list, .create opts, .list])
            | some uv =>
              match c.update with
              | .error ue =>
                (.error ("could not update variable " ++ quoteKey v.key ++ ": " ++ ue),
                 [.list, .create opts, .list, .update uv.id (mkUpdateOpts v)])
              | .ok _ =>
                (.ok (), [.list, .create opts, .list, .update uv.id (mkUpdateOpts v)])
        else
          (.error ("could not create variable " ++ quoteKey v.key ++ ": " ++ e),
           [.list, .create opts])

/-- Number of create calls in a trace. -/
def countCreates : List TfeCall → Nat
  | [] => 0
  | .create _ :: rest => countCreates rest + 1
  | _ :: rest => countCreates rest

/-- Number of update calls in a trace. -/
def countUpdates : List TfeCall → Nat
  | [] => 0
  | .update _ _ :: rest => countUpdates rest + 1
  | _ :: rest => countUpdates rest

/-- Number of list calls in a trace. -/
def countLists : List TfeCall → Nat
  | [] => 0
  | .list :: rest => countLists rest + 1
  | _ :: rest => countLists rest

/-! ## Run poller

Embedding of the polling loop in `run` (main.go lines 256-295).  Time is
measured in seconds.  Each iteration of the Go loop re-executes the
`select`, and both `time.After(maximumTimeout)` and
`time.After(time.Second * 5)` are fresh calls on every iteration, so each
iteration races three deadlines: the absolute cancellation instant, the
iteration start plus 60 minutes, and the iteration start plus 5 seconds.
Go's `select` fires the arm whose deadline arrives first; when several
arms are ready at the same instant it chooses among them at random, which
the embedding models by a tie-break oracle. -/

/-- Poll cadence of the loop: `time.Second * 5`, in seconds. -/
def pollIntervalS : Nat := 5

/-- `maximumTimeout = time.Minute * 60` (main.go line 25), in seconds. -/
def maximumTimeoutS : Nat := 3600

/-- Result of the polling phase.  `success` is the `nil` return of the
success-terminal statuses, the others are the `error` returns of the
respective arms and failure-terminal statuses. -/
inductive PollResult where
  | success
  | ctxCanceled
  | timedOut
  | readFailed
  | failCanceled
  | failDiscarded
  | failErrored
deriving DecidableEq, Repr

/-- The outward-facing message of a failure-terminal poll result (the
three `fmt.Errorf` strings of main.go lines 273-278). -/
def failureMessage : PollResult → Option String
  | .failCanceled => some "run was canceled"
  | .failDiscarded => some "run was discarded"
  | .failErrored => some "run encountered an error"
  | _ => none

/-- Embedding of the status switch (main.go lines 269-279): `some r` for
a terminal status, `none` for every other status (the loop continues). -/
def classifyStatus (s : String) : Option PollResult :=
  if s == "applied" || s == "planned_and_finished" then some .success
  else if s == "canceled" then some .failCanceled
  else if s == "discarded" then some .failDiscarded
  else if s == "errored" then some .failErrored
  else none

/-- The arm of the `select` that fires in one iteration. -/
inductive SelectArm where
  | cancelArm
  | timeoutArm
  | intervalArm
deriving DecidableEq, Repr

/-- Which arm of the `select` (main.go lines 257-262) fires for an
iteration starting at absolute time `t`: the arm with the earliest
deadline, where the cancellation arm is ready from the absolute instant
`cancelAt` (never, when `none`) and the other two arms' timers are
re-created at `t`.  The only possible first-arrival tie is cancellation
against the interval (5 ≠ 3600); Go resolves a tie by a random choice,
modelled by the `tie` bit (`true` = cancellation arm). -/
def selectArm (cancelAt : Option Nat) (t : Nat) (tie : Bool) : SelectArm :=
  let dInterval := t + pollIntervalS
  let dTimeout := t + maximumTimeoutS
  match cancelAt with
  | none => if dTimeout < dInterval then .timeoutArm else .intervalArm
  | some dCancel =>
    if dCancel < dInterval ∧ dCancel < dTimeout then .cancelArm
    else if dTimeout < dCancel ∧ dTimeout < dInterval then .timeoutArm
    else if dCancel = dInterval ∧ dCancel ≤ dTimeout then
      (if tie then .cancelArm else .intervalArm)
    else .intervalArm

/-- Environment of one polling run: the absolute instant at which the
cancellation signal fires (if ever), the tie-break oracle per iteration,
and the outcome of the i-th run-status read (`none` models a read that
returns an error). -/
structure PollEnv where
  cancelAt : Option Nat
  tieCancel : Nat → Bool
  statuses : Nat → Option String

/-- Embedding of the polling loop (main.go lines 256-295).  `fuel` bounds
the number of iterations (the Go loop is unbounded); `i` is the iteration
index, `t` the absolute time at which the iteration's `select` starts,
`reads` the number of run-status reads performed so far.  Returns the
loop's result (`none` when the fuel ran out with the loop still going)
together with the total number of reads performed.  Reads are modelled as
instantaneous; this does not affect which `select` arm can fire, since
the read only starts after the interval arm has already won its
iteration's race. -/
def pollLoop (env : PollEnv) : Nat → Nat → Nat → Nat → Option PollResult × Nat
  | 0, _, _, reads => (none, reads)
  | fuel + 1, i, t, reads =>
    match selectArm env.cancelAt t (env.tieCancel i) with
    | .cancelArm => (some .ctxCanceled, reads)
    | .timeoutArm => (some .timedOut, reads)
    | .intervalArm =>
      match env.statuses i with
      | none => (some .readFailed, reads + 1)
      | some s =>
        match classifyStatus s with
        | some r => (some r, reads + 1)
        | none => pollLoop env fuel (i + 1) (t + pollIntervalS) (reads + 1)

/-! ## Run outputs and the wait gate -/

/-- Embedding of the URL composition of main.go line 246. -/
def runURL (url organization workspace runID : String) : String :=
  url ++ "/app/" ++ organization ++ "/workspaces/" ++ workspace ++
    "/runs/" ++ runID

/-- Embedding of `run` after the run-create call succeeded (main.go lines
246-295): emit the run-id and run-url outputs and the log line, then
return `nil` unless the `wait` input is exactly `"true"`, else run the
polling loop.  Returns the result (with `PollResult.success` standing for
the `nil` return), the emitted stdout lines in order, and the number of
run-status reads performed. -/
def afterRunCreate (wait url organization workspace runID : String)
    (env : PollEnv) (fuel : Nat) :
    Option PollResult × List String × Nat :=
  let u := runURL url organization workspace runID
  let outs := ["::set-output name=run-id::" ++ runID,
               "::set-output name=run-url::" ++ u,
               "Run URL: " ++ u]
  if wait = "true" then
    let r := pollLoop env fuel 0 0 0
    (r.1, outs ++ ["Waiting for run to complete"], r.2)
  else
    (some .success, outs, 0)

/-! ## Auxiliary definitions for the statements -/

/-- The natural number denoted by a base-10 digit list (most significant
first): the semantic inverse of the decimal rendering. -/
def decodeDec (ds : List Char) : Nat :=
  ds.foldl (fun a c => a * 10 + (c.toNat - 48)) 0

/-- An execution in which every read reports the non-terminal status
`pending` and cancellation never fires. -/
def envAllPending : PollEnv :=
  { cancelAt := none, tieCancel := fun _ => false, statuses := fun _ => some "pending" }

/-- An execution whose first read reports `pending` and whose second
reports `errored`, with no cancellation. -/
def envPendingErrored : PollEnv :=
  { cancelAt := none
    tieCancel := fun _ => false
    statuses := fun i => if i = 0 then some "pending" else some "errored" }

/-- An execution in which the cancellation signal becomes ready at the
same instant as the first poll interval (second 5), the select's random
tie choice falls on the interval arm, and the read reports `applied`. -/
def envTieInterval : PollEnv :=
  { cancelAt := some 5, tieCancel := fun _ => false, statuses := fun _ => some "applied" }

/-! ## Helper lemmas -/

theorem digitChar_isDigit (n : Nat) : (digitChar n).isDigit = true := by
  have h : n % 10 < 10 := Nat.mod_lt _ (by norm_num)
  unfold digitChar
  set m := n % 10 with hm
  interval_cases m <;> rfl

theorem digitChar_toNat (n : Nat) : (digitChar n).toNat = 48 + n % 10 := by
  have h : n % 10 < 10 := Nat.mod_lt _ (by norm_num)
  unfold digitChar
  set m := n % 10 with hm
  interval_cases m <;> rfl

theorem natDecChars_all_isDigit (fuel : Nat) :
    ∀ n, (natDecChars fuel n).all Char.isDigit = true := by
  induction fuel with
  | zero => intro n; rfl
  | succ fuel ih =>
    intro n
    by_cases hn : n < 10
    · simp [natDecChars, hn, digitChar_isDigit]
    · simp [natDecChars, hn, List.all_append, ih (n / 10), digitChar_isDigit]

theorem natDecChars_length_pos (fuel : Nat) :
    ∀ n, n < fuel → 1 ≤ (natDecChars fuel n).length := by
  induction fuel with
  | zero => intro n h; omega
  | succ fuel _ =>
    intro n _
    by_cases hn : n < 10
    · simp [natDecChars, hn]
    · simp [natDecChars, hn]

theorem decodeDec_natDecChars (fuel : Nat) :
    ∀ n, n < fuel → decodeDec (natDecChars fuel n) = n := by
  induction fuel with
  | zero => intro n h; omega
  | succ fuel ih =>
    intro n hn
    by_cases h10 : n < 10
    · simp only [natDecChars, h10, if_true, decodeDec, List.foldl, digitChar_toNat]
      omega
    · have hdiv : n / 10 < fuel := by omega
      simp only [natDecChars, h10, if_false, decodeDec, List.foldl_append, List.foldl]
      have := ih (n / 10) hdiv
      simp only [decodeDec] at this
      rw [this, digitChar_toNat]
      omega

theorem frac6_length (f : Nat) : (frac6 f).length = 6 := rfl

theorem frac6_all_isDigit (f : Nat) : (frac6 f).all Char.isDigit = true := by
  simp [frac6, digitChar_isDigit]

/-! ## Claim theorems -/

/-- C7: `convertValueToString` is total on every scalar shape and never
fails: a string passes through unchanged, a boolean renders as
`true`/`false`, signed and unsigned integers render as plain base-10
digit strings (no grouping, no sign padding — just an optional leading
minus) whose digits denote exactly the input's magnitude, a float renders
in fixed-point non-scientific form (optional minus, base-10 integer part,
a dot, exactly six base-10 fraction digits), and any other value passes
its generic stringification through. -/
theorem c7_convert_value_total :
    (∀ s, convertValueToString (.str s) = s) ∧
    (convertValueToString (.boolean true) = "true" ∧
     convertValueToString (.boolean false) = "false") ∧
    (∀ i : Int, ∃ ds : List Char,
      1 ≤ ds.length ∧ ds.all Char.isDigit = true ∧ decodeDec ds = i.natAbs ∧
      convertValueToString (.int i) =
        (if i < 0 then "-" ++ String.mk ds else String.mk ds)) ∧
    (∀ n : Nat, ∃ ds : List Char,
      1 ≤ ds.length ∧ ds.all Char.isDigit = true ∧ decodeDec ds = n ∧
      convertValueToString (.uint n) = String.mk ds) ∧
    (∀ q : ℚ, ∃ ds fs : List Char,
      1 ≤ ds.length ∧ ds.all Char.isDigit = true ∧
      fs.length = 6 ∧ fs.all Char.isDigit = true ∧
      convertValueToString (.float q) =
        (if q < 0 then "-" else "") ++ String.mk ds ++ "." ++ String.mk fs) ∧
    (∀ r, convertValueToString (.other r) = r) := by
  refine ⟨fun s => rfl, ⟨rfl, rfl⟩, ?_, ?_, ?_, fun r => rfl⟩
  · intro i
    refine ⟨natDecChars (i.natAbs + 1) i.natAbs,
      natDecChars_length_pos _ _ (by omega),
      natDecChars_all_isDigit _ _,
      decodeDec_natDecChars _ _ (by omega), rfl⟩
  · intro n
    exact ⟨natDecChars (n + 1) n,
      natDecChars_length_pos _ _ (by omega),
      natDecChars_all_isDigit _ _,
      decodeDec_natDecChars _ _ (by omega), rfl⟩
  · intro q
    refine ⟨natDecChars ((round (|q| * 1000000) : ℤ).toNat / 1000000 + 1)
        ((round (|q| * 1000000) : ℤ).toNat / 1000000),
      frac6 ((round (|q| * 1000000) : ℤ).toNat % 1000000),
      natDecChars_length_pos _ _ (by omega),
      natDecChars_all_isDigit _ _,
      frac6_length _, frac6_all_isDigit _, rfl⟩

/-- C7 witness: the theorem applied at concrete scalar inputs, with the
conversions evaluated. -/
theorem c7_convert_value_total_witness :
    convertValueToString (.str "abc") = "abc" ∧
    convertValueToString (.boolean true) = "true" ∧
    (∃ ds : List Char,
      1 ≤ ds.length ∧ ds.all Char.isDigit = true ∧ decodeDec ds = (Int.natAbs (-42)) ∧
      convertValueToString (.int (-42)) =
        (if (-42 : Int) < 0 then "-" ++ String.mk ds else String.mk ds)) :=
  ⟨c7_convert_value_total.1 "abc", c7_convert_value_total.2.1.1,
   c7_convert_value_total.2.2.1 (-42)⟩

/-- C8: `containsHCLSyntax` returns true exactly when the string contains
at least one of the characters `[`, `]`, `{`, `}`, `=`, `,`. -/
theorem c8_contains_hcl_syntax_iff (s : String) :
    containsHCLSyntax s = true ↔
      ∃ c ∈ s.data,
        c = '[' ∨ c = ']' ∨ c = '\x7b' ∨ c = '\x7d' ∨ c = '=' ∨ c = ',' := by
  have hmem : ∀ c : Char, (s.data.contains c = true) = (c ∈ s.data) :=
    fun c => propext List.elem_iff
  simp only [containsHCLSyntax, goContainsChar, Bool.or_eq_true, hmem]
  constructor
  · intro h
    rcases h with ((((h | h) | h) | h) | h) | h
    · exact ⟨'[', h, Or.inl rfl⟩
    · exact ⟨']', h, Or.inr (Or.inl rfl)⟩
    · exact ⟨'\x7b', h, Or.inr (Or.inr (Or.inl rfl))⟩
    · exact ⟨'\x7d', h, Or.inr (Or.inr (Or.inr (Or.inl rfl)))⟩
    · exact ⟨'=', h, Or.inr (Or.inr (Or.inr (Or.inr (Or.inl rfl))))⟩
    · exact ⟨',', h, Or.inr (Or.inr (Or.inr (Or.inr (Or.inr rfl))))⟩
  · rintro ⟨c, hc, hcs⟩
    rcases hcs with rfl | rfl | rfl | rfl | rfl | rfl
    · exact Or.inl (Or.inl (Or.inl (Or.inl (Or.inl hc))))
    · exact Or.inl (Or.inl (Or.inl (Or.inl (Or.inr hc))))
    · exact Or.inl (Or.inl (Or.inl (Or.inr hc)))
    · exact Or.inl (Or.inl (Or.inr hc))
    · exact Or.inl (Or.inr hc)
    · exact Or.inr hc

/-- C8 witness: the characterization applied to concrete strings. -/
theorem c8_contains_hcl_syntax_iff_witness :
    (∃ c ∈ ("a,b" : String).data,
      c = '[' ∨ c = ']' ∨ c = '\x7b' ∨ c = '\x7d' ∨ c = '=' ∨ c = ',') ∧
    containsHCLSyntax "plain" = false :=
  ⟨(c8_contains_hcl_syntax_iff "a,b").mp (by decide), by decide⟩

theorem selectArm_none (t : Nat) (tie : Bool) :
    selectArm none t tie = .intervalArm := by
  simp only [selectArm, pollIntervalS, maximumTimeoutS]
  rw [if_neg (by omega)]

theorem selectArm_cancel_lt {tc t : Nat} (h : tc < t + pollIntervalS) (tie : Bool) :
    selectArm (some tc) t tie = .cancelArm := by
  simp only [selectArm, pollIntervalS, maximumTimeoutS] at h ⊢
  rw [if_pos (by omega)]

theorem selectArm_ne_timeout (cancelAt : Option Nat) (t : Nat) (tie : Bool) :
    selectArm cancelAt t tie ≠ .timeoutArm := by
  cases cancelAt with
  | none =>
    simp only [selectArm, pollIntervalS, maximumTimeoutS]
    rw [if_neg (by omega)]
    simp
  | some tc =>
    simp only [selectArm, pollIntervalS, maximumTimeoutS]
    split
    · simp
    · rw [if_neg (show ¬(t + 3600 < tc ∧ t + 3600 < t + 5) from fun h => by omega)]
      split
      · split <;> simp
      · simp

theorem classifyStatus_ne_timedOut {s : String} {r : PollResult}
    (h : classifyStatus s = some r) : r ≠ PollResult.timedOut := by
  simp only [classifyStatus] at h
  split at h
  · cases h; simp
  · split at h
    · cases h; simp
    · split at h
      · cases h; simp
      · split at h
        · cases h; simp
        · exact absurd h (by simp)

theorem pollLoop_reads_mono (env : PollEnv) :
    ∀ fuel i t reads, reads ≤ (pollLoop env fuel i t reads).2 := by
  intro fuel
  induction fuel with
  | zero => intro i t reads; exact Nat.le_refl _
  | succ fuel ih =>
    intro i t reads
    cases harm : selectArm env.cancelAt t (env.tieCancel i) with
    | cancelArm => simp [pollLoop, harm]
    | timeoutArm => simp [pollLoop, harm]
    | intervalArm =>
      cases hs : env.statuses i with
      | none => simp [pollLoop, harm, hs]
      | some s =>
        cases hc : classifyStatus s with
        | some r => simp [pollLoop, harm, hs, hc]
        | none =>
          simp only [pollLoop, harm, hs, hc]
          exact Nat.le_trans (Nat.le_succ _) (ih (i + 1) (t + pollIntervalS) (reads + 1))

/-- C1 (code bug): the timeout arm of the `select` can never fire.  Both
timers are re-created on every loop iteration, and the iteration's
5-second interval deadline always precedes its 60-minute timeout
deadline, so (first conjunct) no execution of the polling loop ever
returns the `run timed out` error, and (second conjunct) on an execution
whose reads all report the non-terminal status `pending` with no
cancellation, the loop runs forever — for every iteration bound it is
still polling, no matter how far past the 60-minute ceiling the elapsed
time `5 * fuel` has grown. -/
theorem c1_timeout_arm_never_fires :
    (∀ (env : PollEnv) (fuel i t reads : Nat),
      (pollLoop env fuel i t reads).1 ≠ some PollResult.timedOut) ∧
    (∀ fuel i t reads, (pollLoop envAllPending fuel i t reads).1 = none) := by
  constructor
  · intro env fuel
    induction fuel with
    | zero => intro i t reads h; exact Option.noConfusion h
    | succ fuel ih =>
      intro i t reads
      cases harm : selectArm env.cancelAt t (env.tieCancel i) with
      | cancelArm => simp [pollLoop, harm]
      | timeoutArm => exact absurd harm (selectArm_ne_timeout _ _ _)
      | intervalArm =>
        cases hs : env.statuses i with
        | none => simp [pollLoop, harm, hs]
        | some s =>
          cases hc : classifyStatus s with
          | some r =>
            simp only [pollLoop, harm, hs, hc]
            simpa using classifyStatus_ne_timedOut hc
          | none =>
            simp only [pollLoop, harm, hs, hc]
            exact ih (i + 1) (t + pollIntervalS) (reads + 1)
  · intro fuel
    induction fuel with
    | zero => intro i t reads; rfl
    | succ fuel ih =>
      intro i t reads
      have harm : selectArm none t false = .intervalArm := selectArm_none t false
      have hc : classifyStatus "pending" = none := rfl
      simp only [pollLoop, envAllPending, harm, hc]
      exact ih (i + 1) (t + pollIntervalS) (reads + 1)

/-- C1 witness: the theorem applied at concrete executions — the
all-`pending` run is still polling after 1000 iterations (83+ minutes of
poll intervals, far past the 60-minute ceiling), and a concrete finished
run's result is not the timeout error. -/
theorem c1_timeout_arm_never_fires_witness :
    (pollLoop envAllPending 1000 0 0 0).1 = none ∧
    (pollLoop envPendingErrored 2 0 0 0).1 ≠ some PollResult.timedOut :=
  ⟨c1_timeout_arm_never_fires.2 1000 0 0 0,
   c1_timeout_arm_never_fires.1 envPendingErrored 2 0 0 0⟩

/-- C2 counterexample: the claim's deterministic tie-break (cancellation
checked first when cancellation and interval are simultaneously ready)
fails.  Go's `select` chooses among ready arms at random; on the
execution where cancellation becomes ready exactly at the first 5-second
interval (instant 5) and the random choice falls on the interval arm, the
loop performs a run-status read and returns success with 1 read, instead
of the cancellation error with 0 reads that a cancellation-first
tie-break would produce. -/
theorem c2_tie_not_cancellation_first :
    pollLoop envTieInterval 1 0 0 0 = (some PollResult.success, 1) ∧
    pollLoop envTieInterval 1 0 0 0 ≠ (some PollResult.ctxCanceled, 0) := by
  exact ⟨by decide, by decide⟩

/-- C2 (amended): if the cancellation signal fires strictly before the
iteration's poll interval elapses, the poller terminates immediately with
the cancellation as its error, performing zero additional run-status
reads; the simultaneous-readiness tie between cancellation and interval
is resolved nondeterministically by the `select`, not cancellation-first. -/
theorem c2_cancel_before_interval_aborts (env : PollEnv) (tc fuel i t reads : Nat)
    (hca : env.cancelAt = some tc) (hlt : tc < t + pollIntervalS) :
    pollLoop env (fuel + 1) i t reads = (some PollResult.ctxCanceled, reads) := by
  have harm : selectArm env.cancelAt t (env.tieCancel i) = .cancelArm := by
    rw [hca]; exact selectArm_cancel_lt hlt _
  simp [pollLoop, harm]

/-- C2 witness: a run cancelled at instant 3, before the first poll read
would become due at instant 5, aborts with the cancellation error and
zero reads. -/
theorem c2_cancel_before_interval_aborts_witness :
    pollLoop { cancelAt := some 3, tieCancel := fun _ => false,
               statuses := fun _ => some "applied" } 10 0 0 0 =
      (some PollResult.ctxCanceled, 0) :=
  c2_cancel_before_interval_aborts _ 3 9 0 0 0 rfl (by norm_num [pollIntervalS])

/-- C6: the status classification of a successful poll read — `applied`
and `planned_and_finished` stop the loop with success; `canceled`,
`discarded` and `errored` stop it with three pairwise-distinct
outward-facing failure messages; every other status string is
non-terminal and the loop keeps polling; and on the concrete poll
sequence `pending, errored` the loop stops with the `errored` sub-kind
after exactly 2 reads, whatever extra fuel it has. -/
theorem c6_status_classification :
    (classifyStatus "applied" = some PollResult.success ∧
     classifyStatus "planned_and_finished" = some PollResult.success) ∧
    (classifyStatus "canceled" = some PollResult.failCanceled ∧
     classifyStatus "discarded" = some PollResult.failDiscarded ∧
     classifyStatus "errored" = some PollResult.failErrored) ∧
    (failureMessage PollResult.failCanceled = some "run was canceled" ∧
     failureMessage PollResult.failDiscarded = some "run was discarded" ∧
     failureMessage PollResult.failErrored = some "run encountered an error" ∧
     failureMessage PollResult.failCanceled ≠ failureMessage PollResult.failDiscarded ∧
     failureMessage PollResult.failCanceled ≠ failureMessage PollResult.failErrored ∧
     failureMessage PollResult.failDiscarded ≠ failureMessage PollResult.failErrored) ∧
    (∀ s, s ≠ "applied" → s ≠ "planned_and_finished" → s ≠ "canceled" →
      s ≠ "discarded" → s ≠ "errored" → classifyStatus s = none) ∧
    (∀ fuel, pollLoop envPendingErrored (fuel + 2) 0 0 0 =
      (some PollResult.failErrored, 2)) := by
  refine ⟨⟨rfl, rfl⟩, ⟨rfl, rfl, rfl⟩, ⟨rfl, rfl, rfl, by decide, by decide, by decide⟩,
    ?_, fun fuel => rfl⟩
  intro s h1 h2 h3 h4 h5
  simp only [classifyStatus, beq_iff_eq, Bool.or_eq_true, decide_eq_true_eq]
  rw [if_neg (by tauto), if_neg (by simpa using h3), if_neg (by simpa using h4),
    if_neg (by simpa using h5)]

/-- C6 witness: the non-terminal clause applied to the concrete status
`planning`, together with the concrete two-read `errored` run. -/
theorem c6_status_classification_witness :
    classifyStatus "planning" = none ∧
    pollLoop envPendingErrored 5 0 0 0 = (some PollResult.failErrored, 2) :=
  ⟨c6_status_classification.2.2.2.1 "planning" (by decide) (by decide) (by decide)
      (by decide) (by decide),
   c6_status_classification.2.2.2.2 3⟩

/-- C3: the reconciler's scan over the fetched remote list matches on key
alone — it returns the first remote variable with the desired key (the
`find?` characterization), and relabelling every remote variable's
category arbitrarily changes neither whether nor which variable is found
— and the create path assigns the fixed default category `terraform`.
(The desired-entry type `workspaceVar` has no category field, so the
claim's "require a category match when the desired entry specifies one"
clause has no instance: every desired entry is category-less, is matched
on key alone, and is created with the default category.) -/
theorem c3_match_on_key_alone_default_category :
    (∀ (key : String) (items : List RemoteVar),
      findByKey key items = items.find? (fun ev => ev.key == key)) ∧
    (∀ (key : String) (items : List RemoteVar) (g : RemoteVar → String),
      findByKey key (items.map (fun ev => { ev with category := g ev })) =
        (findByKey key items).map (fun ev => { ev with category := g ev })) ∧
    (∀ v : WorkspaceVar, (mkCreateOpts v).category = "terraform") := by
  refine ⟨?_, ?_, fun v => rfl⟩
  · intro key items
    induction items with
    | nil => rfl
    | cons ev rest ih =>
      simp only [findByKey, List.find?]
      by_cases h : ev.key == key
      · simp [h]
      · simp only [Bool.not_eq_true] at h
        simp [h, ih]
  · intro key items g
    induction items with
    | nil => rfl
    | cons ev rest ih =>
      simp only [List.map, findByKey]
      by_cases h : ev.key == key
      · simp [h]
      · simp only [Bool.not_eq_true] at h
        simp [h, ih]

/-- C5: reconciling one desired entry without a conflict — when the key
is absent from the fetched list and the create succeeds, the entry's
processing succeeds having issued exactly one create (with the options
built from the entry) and zero updates; when the key is present, it
issues exactly one update, addressed to the found variable's identifier
and carrying the options built from the entry, and zero creates —
whether or not that update succeeds. -/
theorem c5_reconcile_call_counts (c : ClientResponses) (v : WorkspaceVar)
    (items : List RemoteVar) (hlist : c.list1 = .ok items) :
    (findByKey v.key items = none → c.create = .ok () →
      processVar c v = (.ok (), [.list, .create (mkCreateOpts v)]) ∧
      countCreates (processVar c v).2 = 1 ∧
      countUpdates (processVar c v).2 = 0) ∧
    (∀ ev, findByKey v.key items = some ev →
      (processVar c v).2 = [.list, .update ev.id (mkUpdateOpts v)] ∧
      countUpdates (processVar c v).2 = 1 ∧
      countCreates (processVar c v).2 = 0) := by
  constructor
  · intro hfind hcreate
    simp [processVar, hlist, hfind, hcreate, countCreates, countUpdates]
  · intro ev hfind
    cases hu : c.update with
    | ok u =>
      simp [processVar, hlist, hfind, hu, countCreates, countUpdates]
    | error ue =>
      simp [processVar, hlist, hfind, hu, countCreates, countUpdates]

/-- C4: the create-conflict fallback.  When the key is absent from the
fetched list and the create fails with exactly the conflict signal
`Key has already been taken`, and the re-fetched list now contains the
key, the entry's processing performs exactly one list re-fetch (two list
calls in total), one create attempt, and exactly one update addressed to
the identifier of the variable located in the re-fetched list — and both
its result and the calls issued after the re-fetch coincide with the
key-present path run against the re-fetched list, so the end state is
identical.  Any create failure with a different error aborts the entry
with the wrapped error naming the key and issues no further calls. -/
theorem c4_create_conflict_fallback (c : ClientResponses) (v : WorkspaceVar)
    (items : List RemoteVar) (e : String)
    (hlist : c.list1 = .ok items)
    (hfind : findByKey v.key items = none)
    (hcreate : c.create = .error e) :
    (∀ items2 uv, e = "Key has already been taken" →
      c.list2 = .ok items2 → findByKey v.key items2 = some uv →
      processVar c v =
        ((processVar { list1 := c.list2, create := c.create, list2 := c.list2,
                       update := c.update } v).1,
         .list :: .create (mkCreateOpts v) ::
           (processVar { list1 := c.list2, create := c.create, list2 := c.list2,
                         update := c.update } v).2) ∧
      countLists (processVar c v).2 = 2 ∧
      countCreates (processVar c v).2 = 1 ∧
      countUpdates (processVar c v).2 = 1 ∧
      TfeCall.update uv.id (mkUpdateOpts v) ∈ (processVar c v).2) ∧
    (e ≠ "Key has already been taken" →
      processVar c v =
        (.error ("could not create variable " ++ quoteKey v.key ++ ": " ++ e),
         [.list, .create (mkCreateOpts v)])) := by
  constructor
  · intro items2 uv he hlist2 hfind2
    subst he
    cases hu : c.update with
    | ok u =>
      refine ⟨?_, ?_⟩
      · simp [processVar, hlist, hfind, hcreate, hlist2, hfind2, hu]
      · simp [processVar, hlist, hfind, hcreate, hlist2, hfind2, hu,
          countLists, countCreates, countUpdates]
    | error ue =>
      refine ⟨?_, ?_⟩
      · simp [processVar, hlist, hfind, hcreate, hlist2, hfind2, hu]
      · simp [processVar, hlist, hfind, hcreate, hlist2, hfind2, hu,
          countLists, countCreates, countUpdates]
  · intro hne
    have hbeq : (e == "Key has already been taken") = false := by
      simpa using hne
    simp [processVar, hlist, hfind, hcreate, hbeq]

/-- C4 witness: the theorem applied at concrete inputs — a conflicting
create against an initially empty list whose re-fetch locates the winner
`var-9`, and a create failing with an unrelated error. -/
theorem c4_create_conflict_fallback_witness :
    (countLists (processVar
      { list1 := .ok [], create := .error "Key has already been taken",
        list2 := .ok [{ id := "var-9", key := "k", category := "terraform" }],
        update := .ok () }
      { key := "k", value := .str "v", description := none, hcl := none,
        sensitive := none }).2 = 2 ∧
     TfeCall.update "var-9" (mkUpdateOpts
       { key := "k", value := .str "v", description := none, hcl := none,
         sensitive := none }) ∈ (processVar
      { list1 := .ok [], create := .error "Key has already been taken",
        list2 := .ok [{ id := "var-9", key := "k", category := "terraform" }],
        update := .ok () }
      { key := "k", value := .str "v", description := none, hcl := none,
        sensitive := none }).2) ∧
    processVar
      { list1 := .ok [], create := .error "boom", list2 := .ok [],
        update := .ok () }
      { key := "k", value := .str "v", description := none, hcl := none,
        sensitive := none } =
      (.error ("could not create variable " ++ quoteKey "k" ++ ": " ++ "boom"),
       [.list, .create (mkCreateOpts
         { key := "k", value := .str "v", description := none, hcl := none,
           sensitive := none })]) := by
  constructor
  · have h := (c4_create_conflict_fallback
      { list1 := .ok [], create := .error "Key has already been taken",
        list2 := .ok [{ id := "var-9", key := "k", category := "terraform" }],
        update := .ok () }
      { key := "k", value := .str "v", description := none, hcl := none,
        sensitive := none }
      [] "Key has already been taken" rfl rfl rfl).1
      [{ id := "var-9", key := "k", category := "terraform" }]
      { id := "var-9", key := "k", category := "terraform" }
      rfl rfl (by decide)
    exact ⟨h.2.1, h.2.2.2.2⟩
  · exact (c4_create_conflict_fallback
      { list1 := .ok [], create := .error "boom", list2 := .ok [],
        update := .ok () }
      { key := "k", value := .str "v", description := none, hcl := none,
        sensitive := none }
      [] "boom" rfl rfl rfl).2 (by decide)

/-- C5 witness: the theorem applied at concrete inputs — an empty remote
list with a successful create, and a singleton remote list hit by key. -/
theorem c5_reconcile_call_counts_witness :
    (processVar { list1 := .ok [], create := .ok (), list2 := .ok [],
                  update := .ok () }
        { key := "k", value := .str "v", description := none, hcl := none,
          sensitive := none } =
      (.ok (), [.list, .create (mkCreateOpts
        { key := "k", value := .str "v", description := none, hcl := none,
          sensitive := none })]) ∧ True ∧ True) ∧
    (((processVar { list1 := .ok [{ id := "var-1", key := "k", category := "terraform" }],
                    create := .ok (), list2 := .ok [], update := .ok () }
        { key := "k", value := .str "v", description := none, hcl := none,
          sensitive := none }).2 =
      [.list, .update "var-1" (mkUpdateOpts
        { key := "k", value := .str "v", description := none, hcl := none,
          sensitive := none })]) ∧ True) := by
  constructor
  · have h := (c5_reconcile_call_counts
      { list1 := .ok [], create := .ok (), list2 := .ok [], update := .ok () }
      { key := "k", value := .str "v", description := none, hcl := none,
        sensitive := none } [] rfl).1 rfl rfl
    exact ⟨h.1, trivial, trivial⟩
  · have h := (c5_reconcile_call_counts
      { list1 := .ok [{ id := "var-1", key := "k", category := "terraform" }],
        create := .ok (), list2 := .ok [], update := .ok () }
      { key := "k", value := .str "v", description := none, hcl := none,
        sensitive := none }
      [{ id := "var-1", key := "k", category := "terraform" }] rfl).2
      { id := "var-1", key := "k", category := "terraform" } (by decide)
    exact ⟨h.1, trivial⟩

/-- C9: whenever run creation succeeds, the run URL is composed exactly
as `baseURL/app/organization/workspaces/workspace/runs/runID`, and the
run-id and run-url outputs are the first lines emitted — before the wait
phase begins — so they are present in the emitted output for every
polling environment and fuel, whatever the wait phase later does (read
failure, terminal failure, fuel exhaustion, or cancellation). -/
theorem c9_run_url_and_outputs (wait url organization workspace runID : String)
    (env : PollEnv) (fuel : Nat) :
    runURL url organization workspace runID =
      url ++ "/app/" ++ organization ++ "/workspaces/" ++ workspace ++
        "/runs/" ++ runID ∧
    (afterRunCreate wait url organization workspace runID env fuel).2.1.take 3 =
      ["::set-output name=run-id::" ++ runID,
       "::set-output name=run-url::" ++ runURL url organization workspace runID,
       "Run URL: " ++ runURL url organization workspace runID] ∧
    ("::set-output name=run-id::" ++ runID) ∈
      (afterRunCreate wait url organization workspace runID env fuel).2.1 ∧
    ("::set-output name=run-url::" ++ runURL url organization workspace runID) ∈
      (afterRunCreate wait url organization workspace runID env fuel).2.1 := by
  refine ⟨rfl, ?_, ?_, ?_⟩ <;>
    simp only [afterRunCreate] <;>
    split <;>
    simp

/-- C9 witness: the theorem applied at a concrete invocation whose wait
phase fails with the `errored` status — the outputs are still present. -/
theorem c9_run_url_and_outputs_witness :
    ("::set-output name=run-url::" ++ runURL "https://app.terraform.io" "org" "ws" "run-1") ∈
      (afterRunCreate "true" "https://app.terraform.io" "org" "ws" "run-1"
        envPendingErrored 5).2.1 :=
  (c9_run_url_and_outputs "true" "https://app.terraform.io" "org" "ws" "run-1"
    envPendingErrored 5).2.2.2

/-- C10: the polling phase executes iff the wait input is exactly the
string `true`.  For any other wait value the invocation returns success
immediately after emitting the run outputs with zero run-status reads,
regardless of the polling environment; for `"true"` the result and read
count are exactly the polling loop's, and with any fuel and no early
cancellation at least one read is performed. -/
theorem c10_wait_gate (wait url organization workspace runID : String)
    (env : PollEnv) (fuel : Nat) :
    (wait ≠ "true" →
      afterRunCreate wait url organization workspace runID env fuel =
        (some PollResult.success,
         ["::set-output name=run-id::" ++ runID,
          "::set-output name=run-url::" ++ runURL url organization workspace runID,
          "Run URL: " ++ runURL url organization workspace runID], 0)) ∧
    (wait = "true" →
      (afterRunCreate wait url organization workspace runID env fuel).1 =
        (pollLoop env fuel 0 0 0).1 ∧
      (afterRunCreate wait url organization workspace runID env fuel).2.2 =
        (pollLoop env fuel 0 0 0).2) ∧
    (wait = "true" → env.cancelAt = none → 1 ≤ fuel →
      1 ≤ (afterRunCreate wait url organization workspace runID env fuel).2.2) := by
  refine ⟨?_, ?_, ?_⟩
  · intro hne
    simp [afterRunCreate, hne]
  · intro heq
    simp [afterRunCreate, heq]
  · intro heq hca hfuel
    obtain ⟨fuel, rfl⟩ : ∃ f, fuel = f + 1 := ⟨fuel - 1, by omega⟩
    have harm : selectArm env.cancelAt 0 (env.tieCancel 0) = .intervalArm := by
      rw [hca]; exact selectArm_none 0 _
    simp only [afterRunCreate, heq, if_pos rfl]
    cases hs : env.statuses 0 with
    | none => simp [pollLoop, harm, hs]
    | some s =>
      cases hc : classifyStatus s with
      | some r => simp [pollLoop, harm, hs, hc]
      | none =>
        simp only [pollLoop, harm, hs, hc]
        exact le_trans (by omega) (pollLoop_reads_mono env fuel 1 pollIntervalS 1)

/-- C10 witness: the theorem applied at concrete invocations — a
non-`"true"` wait value (the empty string, the unset input) returns
success with zero reads, and the `"true"` value performs a read. -/
theorem c10_wait_gate_witness :
    afterRunCreate "" "u" "o" "w" "r" envPendingErrored 5 =
      (some PollResult.success,
       ["::set-output name=run-id::" ++ "r",
        "::set-output name=run-url::" ++ runURL "u" "o" "w" "r",
        "Run URL: " ++ runURL "u" "o" "w" "r"], 0) ∧
    1 ≤ (afterRunCreate "true" "u" "o" "w" "r" envPendingErrored 5).2.2 :=
  ⟨(c10_wait_gate "" "u" "o" "w" "r" envPendingErrored 5).1 (by decide),
   (c10_wait_gate "true" "u" "o" "w" "r" envPendingErrored 5).2.2 rfl rfl
     (by norm_num)⟩

end TfcAction
